import Mathlib

/-!
Verification of the EnviRon classification-and-reward pipeline.

Shallow embedding of:
- `classifyWasteType` and `findNearbyLocations` from the serverless
  classification function;
- `withRetry` from `src/supabase.js`;
- `updateUserProgress` from `src/components/WasteClassifier.jsx`;
- the HTTP `handler` from `api/classify-waste.js`.

JavaScript strings are modelled as Lean `String`; `String.prototype.includes`
as a contiguous-sublist check over character lists; JavaScript truthiness of
optional strings and numbers is modelled explicitly; promise-returning
operations are modelled as functions from the attempt index to an `Except`
outcome, with the per-attempt timeout race folded in explicitly.
-/

namespace EnviRon

/-! ### Waste taxonomy (`classifyWasteType`) -/

/-- Keyword set `recyclable` from `classifyWasteType`. -/
def recyclableKeys : List String :=
  ["plastic bottle", "bottle", "can", "paper", "plastic", "glass", "metal"]

/-- Keyword set `hazardous` from `classifyWasteType`. -/
def hazardousKeys : List String :=
  ["battery", "electronics", "chemical", "paint"]

/-- Keyword set `donatable` from `classifyWasteType`. -/
def donatableKeys : List String :=
  ["clothes", "furniture", "book"]

/-- Keyword set `organic` from `classifyWasteType`. -/
def organicKeys : List String :=
  ["food", "organic"]

/-- Contiguous-sublist test: does `key` occur inside the character list? -/
def hasSubstr (key : List Char) : List Char → Bool
  | [] => key.isPrefixOf []
  | c :: rest => key.isPrefixOf (c :: rest) || hasSubstr key rest

/-- Model of JavaScript `label.includes(key)`: case-sensitive substring test. -/
def includes (label key : String) : Bool :=
  hasSubstr key.toList label.toList

/-- The spread union `[...recyclable, ...hazardous, ...donatable, ...organic]`. -/
def allKeys : List String :=
  recyclableKeys ++ hazardousKeys ++ donatableKeys ++ organicKeys

/-- Does the label contain any keyword of the union of the four sets? -/
def matchesAny (label : String) : Bool :=
  allKeys.any fun key => includes label key

/-- Does the label contain any keyword of the given set? -/
def matchesSet (keys : List String) (label : String) : Bool :=
  keys.any fun key => includes label key

/-- Model of `classifyWasteType(labels)`: find the first label containing any
keyword, then resolve its category in the fixed priority order
recyclable, hazardous, donatable, organic. -/
def classifyWasteType (labels : List String) : String :=
  match labels.find? matchesAny with
  | none => "General Waste"
  | some matchedLabel =>
    if matchesSet recyclableKeys matchedLabel then "Recyclable"
    else if matchesSet hazardousKeys matchedLabel then "Hazardous"
    else if matchesSet donatableKeys matchedLabel then "Donatable"
    else if matchesSet organicKeys matchedLabel then "Organic"
    else "General Waste"

/-- ASCII model of JavaScript `String.prototype.toLowerCase`, mapping
`Char.toLower` over the characters. -/
def toLowerStr (s : String) : String :=
  ⟨s.data.map Char.toLower⟩

/-- The request handler lowercases every vision label description before
classification: `labels = visionResult.labelAnnotations.map(l =>
l.description.toLowerCase())` followed by `classifyWasteType(labels)`. -/
def handlerClassify (descriptions : List String) : String :=
  classifyWasteType (descriptions.map toLowerStr)

/-! ### Facility locator (`findNearbyLocations`) -/

/-- An external places result, as consumed by `findNearbyLocations`:
`name`, `vicinity`, and a possibly-absent numeric `rating`. -/
structure Place where
  name : String
  vicinity : String
  rating : Option ℚ
deriving DecidableEq

/-- The projected rating field: either the numeric rating or the literal
placeholder string `N/A`. -/
inductive RatingField where
  | num (r : ℚ)
  | na
deriving DecidableEq

/-- A projected facility `{ name, address, rating }`. -/
structure Facility where
  name : String
  address : String
  rating : RatingField
deriving DecidableEq

/-- Model of `place.rating || 'N/A'`: a JavaScript number is falsy exactly
when it is `0` (`NaN` is out of the model), and an absent field is falsy. -/
def ratingOrNA : Option ℚ → RatingField
  | some r => if r ≠ 0 then .num r else .na
  | none => .na

/-- The per-place projection in `findNearbyLocations`. -/
def projectPlace (p : Place) : Facility :=
  { name := p.name, address := p.vicinity, rating := ratingOrNA p.rating }

/-- The `switch (wasteType)` mapping a category to the places-search keyword. -/
def queryFor (wasteType : String) : String :=
  if wasteType == "Recyclable" then "recycling center"
  else if wasteType == "Hazardous" then "hazardous waste disposal"
  else if wasteType == "Donatable" then "thrift store OR donation center"
  else if wasteType == "Organic" then "compost facility"
  else "waste disposal"

/-- Model of `findNearbyLocations`: the external `placesNearby` call is
abstracted to its outcome, either a failure or a ranked result list; on
failure the catch block returns `[]`, otherwise the first three results
are projected in order. -/
def findNearbyLocations (response : Except String (List Place)) : List Facility :=
  match response with
  | .error _ => []
  | .ok results => (results.take 3).map projectPlace

/-! ### Retry wrapper (`withRetry` in `src/supabase.js`) -/

/-- The options object of `withRetry`, with JavaScript numbers for
`maxRetries` modelled as integers so that non-positive values behave as in
the source loop guard. -/
structure RetryOptions where
  maxRetries : ℤ
  delayMs : ℕ
  timeoutMs : ℕ
deriving DecidableEq

/-- Observable outcome of one `withRetry` run: the returned or thrown value
(`Except.error none` models throwing the never-assigned `undefined`
`lastError`), the number of attempts performed, and the sequence of backoff
waits in milliseconds. -/
structure RetryTrace (V : Type) where
  result : Except (Option String) V
  attempts : ℕ
  delays : List ℕ

/-- The timeout rejection message built in `withRetry`. -/
def timeoutError (timeoutMs : ℕ) : String :=
  "Operation timed out after " ++ toString timeoutMs ++ "ms"

/-- Model of `Promise.race([fn(), timeoutPromise])` on attempt `i`: the
operation's own outcome `run i` wins when its duration `time i` is below
`timeoutMs`, otherwise the timer rejects first. -/
def raceAttempt (run : ℕ → Except String V) (time : ℕ → ℕ) (timeoutMs : ℕ)
    (i : ℕ) : Except String V :=
  if time i < timeoutMs then run i else .error (timeoutError timeoutMs)

/-- The `for (let i = 0; i < maxRetries; i++)` loop of `withRetry`. The fuel
argument equals `maxRetries.toNat - i`, so fuel exhaustion is exactly the
loop guard failing, at which point the accumulated `lastError` is thrown. -/
def withRetryLoop (race : ℕ → Except String V) (delayMs : ℕ) (maxRetries : ℤ) :
    ℕ → ℕ → Option String → RetryTrace V
  | 0, i, lastError => ⟨.error lastError, i, []⟩
  | fuel + 1, i, _lastError =>
    match race i with
    | .ok v => ⟨.ok v, i + 1, []⟩
    | .error e =>
      if (i : ℤ) = maxRetries - 1 then ⟨.error (some e), i + 1, []⟩
      else
        let t := withRetryLoop race delayMs maxRetries fuel (i + 1) (some e)
        ⟨t.result, t.attempts, delayMs * (i + 1) :: t.delays⟩

/-- Model of `withRetry(fn, options)` where `fn`'s behavior on attempt `i`
is given by its result `run i` and duration `time i`. -/
def withRetry (run : ℕ → Except String V) (time : ℕ → ℕ)
    (opts : RetryOptions) : RetryTrace V :=
  withRetryLoop (raceAttempt run time opts.timeoutMs) opts.delayMs
    opts.maxRetries opts.maxRetries.toNat 0 none

/-! ### Progress ledger (`updateUserProgress` in `WasteClassifier.jsx`) -/

/-- The `users` row touched by `updateUserProgress`: `points` and `badges`
may each be null/absent, which the source defaults with `|| 0` and `|| []`. -/
structure UserRecord where
  points : Option ℤ
  badges : Option (List String)
deriving DecidableEq

/-- A row inserted into the `classifications` table. -/
structure ClassificationRow where
  user_id : String
  item : String
  result : String
  weight : ℚ
deriving DecidableEq

/-- The persistent state touched by `updateUserProgress`: the append-only
`classifications` table and the user's record. -/
structure ProgressState where
  classifications : List ClassificationRow
  user : UserRecord
deriving DecidableEq

/-- The observable outcome of `updateUserProgress`: the updated state plus
the badge name passed to `setBadgeNotification`, when any. -/
structure ProgressOutcome where
  state : ProgressState
  badgeNotification : Option String
deriving DecidableEq

/-- Model of `updateUserProgress(userId, wasteType)` on the happy path (no
persistence errors): insert the classification row, read the user record,
compute new points and badges, write them back, and flag the badge
notification exactly when the badge was just added. -/
def updateUserProgress (userId wasteType : String) (st : ProgressState) :
    ProgressOutcome :=
  let isRecyclable := toLowerStr wasteType == "recyclable"
  let weight : ℚ := if isRecyclable then 1 / 10 else 0
  let row : ClassificationRow :=
    { user_id := userId, item := wasteType,
      result := if isRecyclable then "Recyclable" else "Non-Recyclable",
      weight := weight }
  let userData := st.user
  let newPoints := userData.points.getD 0 + (if isRecyclable then 20 else 5)
  let badges0 := userData.badges.getD []
  let addBadge := isRecyclable && !(badges0.contains "Eco-Warrior")
  let badges := if addBadge then badges0 ++ ["Eco-Warrior"] else badges0
  { state :=
      { classifications := st.classifications ++ [row],
        user := { points := some newPoints, badges := some badges } },
    badgeNotification := if addBadge then some "Eco-Warrior" else none }

/-! ### HTTP handler (`api/classify-waste.js`) -/

/-- The request body `{ imageBase64, userId, userLocation }`, each field
possibly absent; string fields keep their value so that truthiness can be
tested. -/
structure ReqBody where
  imageBase64 : Option String
  userId : Option String
  userLocation : Option (ℚ × ℚ)
deriving DecidableEq

/-- An incoming HTTP request: method plus parsed body. -/
structure HttpRequest where
  method : String
  body : ReqBody
deriving DecidableEq

/-- JavaScript truthiness of a possibly-absent string: absent and empty are
falsy. -/
def truthyStr : Option String → Bool
  | none => false
  | some s => s != ""

/-- Model of the `handler` in `api/classify-waste.js`, returning the HTTP
status code it sends: 200 for the CORS preflight, 405 for any other
non-POST method, 400 when `imageBase64` or `userId` is missing, and
otherwise 200 with the mock classification (nothing in the try block
throws in this model). -/
def handler (req : HttpRequest) : ℕ :=
  if req.method == "OPTIONS" then 200
  else if req.method != "POST" then 405
  else if !truthyStr req.body.imageBase64 || !truthyStr req.body.userId then 400
  else 200

/-! ### Concrete instances used by witnesses -/

/-- A concrete four-element places result used to witness the facility
locator properties. -/
def placesW : List Place :=
  [⟨"A", "addr1", some 4⟩, ⟨"B", "addr2", none⟩, ⟨"C", "addr3", some 3⟩,
   ⟨"D", "addr4", some 5⟩]

/-- A concrete operation that fails on its first two attempts and succeeds
on the third. -/
def runW : ℕ → Except String ℕ :=
  fun j => if j < 2 then .error ("fail" ++ toString j) else .ok 7

/-- The error message produced by attempt `j` of the always-failing
operation. -/
def errW : ℕ → String := fun j => "fail" ++ toString j

/-! ### Helper lemmas -/

/-- If all entries before position `i` fail the predicate and the entry at
`i` passes it, then `find?` returns that entry. -/
theorem find?_eq_get_of_first {α : Type} (p : α → Bool) :
    ∀ (l : List α) (i : ℕ) (h : i < l.length),
      (∀ j (hj : j < i), p (l.get ⟨j, Nat.lt_trans hj h⟩) = false) →
      p (l.get ⟨i, h⟩) = true → l.find? p = some (l.get ⟨i, h⟩) := by
  intro l
  induction l with
  | nil => intro i h; exact absurd h (Nat.not_lt_zero i)
  | cons a tl ih =>
    intro i h hfirst hp
    cases i with
    | zero =>
      simp only [List.get] at hp
      simp [List.find?, hp]
    | succ k =>
      have ha : p a = false := hfirst 0 (Nat.succ_pos k)
      simp only [List.get] at hp ⊢
      rw [List.find?, ha]
      exact ih k (Nat.lt_of_succ_lt_succ h)
        (fun j hj => hfirst (j + 1) (Nat.succ_lt_succ hj)) hp

/-- Packing a valid codepoint and unpacking it is the identity. -/
theorem char_toNat_ofNat_valid {n : ℕ} (h : n.isValidChar) :
    (Char.ofNat n).toNat = n := by
  rw [Char.ofNat, dif_pos h]
  rfl

/-- ASCII lowering of a character is idempotent. -/
theorem char_toLower_idem (c : Char) : c.toLower.toLower = c.toLower := by
  unfold Char.toLower
  by_cases h : c.toNat ≥ 65 ∧ c.toNat ≤ 90
  · have hv : (c.toNat + 32).isValidChar := by
      have h2 : c.toNat + 32 < 55296 := by omega
      exact Or.inl h2
    rw [if_pos h]
    have ht : (Char.ofNat (c.toNat + 32)).toNat = c.toNat + 32 :=
      char_toNat_ofNat_valid hv
    rw [if_neg (by omega)]
  · rw [if_neg h, if_neg h]

/-- Lowering a string is idempotent. -/
theorem toLowerStr_idem (s : String) : toLowerStr (toLowerStr s) = toLowerStr s := by
  unfold toLowerStr
  simp [List.map_map, Function.comp_def, char_toLower_idem]

/-- The retry loop performs at most `fuel` further attempts. -/
theorem withRetryLoop_attempts_le {V : Type} (race : ℕ → Except String V)
    (delayMs : ℕ) (maxRetries : ℤ) :
    ∀ (fuel i : ℕ) (le : Option String),
      (withRetryLoop race delayMs maxRetries fuel i le).attempts ≤ i + fuel := by
  intro fuel
  induction fuel with
  | zero => intro i le; simp [withRetryLoop]
  | succ f ih =>
    intro i le
    rw [withRetryLoop]
    cases hrace : race i with
    | ok v => simp
    | error e =>
      by_cases hc : (i : ℤ) = maxRetries - 1
      · simp [hc]
      · simp only [hc, if_false]
        have h2 := ih (i + 1) (some e)
        show (withRetryLoop race delayMs maxRetries f (i + 1) (some e)).attempts ≤ i + (f + 1)
        omega

/-- If the attempts starting at index `i` fail `k` times and then succeed,
the retry loop returns the success after exactly `k + 1` further attempts,
waiting `delayMs * (attempt number)` after each failure. -/
theorem withRetryLoop_succeeds {V : Type} (race : ℕ → Except String V)
    (delayMs : ℕ) (maxRetries : ℤ) (v : V) :
    ∀ (k fuel i : ℕ) (le : Option String),
      k < fuel →
      (i : ℤ) + fuel = maxRetries →
      (∀ j, j < k → ∃ e, race (i + j) = .error e) →
      race (i + k) = .ok v →
      withRetryLoop race delayMs maxRetries fuel i le =
        ⟨.ok v, i + k + 1, (List.range k).map (fun j => delayMs * (i + j + 1))⟩ := by
  intro k
  induction k with
  | zero =>
    intro fuel i le hk hinv hfail hok
    obtain ⟨f, rfl⟩ : ∃ f, fuel = f + 1 := ⟨fuel - 1, by omega⟩
    rw [withRetryLoop]
    simp only [Nat.add_zero] at hok
    rw [hok]
    simp
  | succ k ih =>
    intro fuel i le hk hinv hfail hok
    obtain ⟨f, rfl⟩ : ∃ f, fuel = f + 1 := ⟨fuel - 1, by omega⟩
    rw [withRetryLoop]
    obtain ⟨e, he⟩ := hfail 0 (Nat.succ_pos k)
    simp only [Nat.add_zero] at he
    rw [he]
    dsimp only
    have hne : ¬((i : ℤ) = maxRetries - 1) := by omega
    rw [if_neg hne]
    have hrec := ih f (i + 1) (some e) (by omega) (by push_cast at hinv ⊢; omega)
      (fun j hj => by
        obtain ⟨e2, he2⟩ := hfail (j + 1) (Nat.succ_lt_succ hj)
        exact ⟨e2, by rw [← he2]; congr 1; omega⟩)
      (by rw [← hok]; congr 1; omega)
    rw [hrec]
    simp only [List.range_succ_eq_map, List.map_cons, List.map_map, Function.comp_def]
    have hmap : List.map (fun j => delayMs * (i + 1 + j + 1)) (List.range k) =
        List.map (fun x => delayMs * (i + x.succ + 1)) (List.range k) :=
      List.map_congr_left (fun a _ => by congr 1; omega)
    have harith : i + 1 + k + 1 = i + (k + 1) + 1 := by omega
    simp [harith, hmap]

/-- If every attempt starting at index `i` fails until the loop guard is
exhausted, the retry loop throws the last error after exactly `fuel`
further attempts, waiting after each failure but the last. -/
theorem withRetryLoop_all_fail {V : Type} (race : ℕ → Except String V)
    (delayMs : ℕ) (maxRetries : ℤ) (err : ℕ → String) :
    ∀ (fuel i : ℕ) (le : Option String),
      1 ≤ fuel →
      (i : ℤ) + fuel = maxRetries →
      (∀ j, j < fuel → race (i + j) = .error (err (i + j))) →
      withRetryLoop race delayMs maxRetries fuel i le =
        ⟨.error (some (err (i + fuel - 1))), i + fuel,
         (List.range (fuel - 1)).map (fun j => delayMs * (i + j + 1))⟩ := by
  intro fuel
  induction fuel with
  | zero => intro i le h0; omega
  | succ f ih =>
    intro i le hf hinv hfail
    rw [withRetryLoop]
    have he : race i = .error (err i) := by
      have h0 := hfail 0 (Nat.succ_pos f)
      simpa using h0
    rw [he]
    dsimp only
    by_cases hlast : (i : ℤ) = maxRetries - 1
    · rw [if_pos hlast]
      have hf0 : f = 0 := by omega
      subst hf0
      simp
    · rw [if_neg hlast]
      have hf1 : 1 ≤ f := by omega
      obtain ⟨g, rfl⟩ : ∃ g, f = g + 1 := ⟨f - 1, by omega⟩
      have hrec := ih (i + 1) (some (err i)) hf1 (by push_cast at hinv ⊢; omega)
        (fun j hj => by
          have hik : i + 1 + j = i + (j + 1) := by omega
          rw [hik]
          exact hfail (j + 1) (Nat.succ_lt_succ hj))
      rw [hrec]
      simp only [RetryTrace.mk.injEq]
      refine ⟨?_, by omega, ?_⟩
      · have hix : i + 1 + (g + 1) - 1 = i + (g + 1 + 1) - 1 := by omega
        rw [hix]
      · simp only [Nat.add_sub_cancel, List.range_succ_eq_map, List.map_cons, List.map_map,
          Function.comp_def, Nat.add_zero, Nat.succ_eq_add_one]
        congr 1
        exact List.map_congr_left (fun a _ => by congr 1; omega)

/-! ### Claim theorems -/

/-- C1: `classifyWasteType` selects as matched label the first label in
sequence order containing any keyword of the union of the four sets, and
the returned category depends on that matched label alone; in particular
`["food", "plastic bottle"]` classifies as Organic, not Recyclable. -/
theorem classify_first_match_decides :
    (∀ (labels : List String) (i : ℕ) (h : i < labels.length),
      (∀ j (hj : j < i), matchesAny (labels.get ⟨j, Nat.lt_trans hj h⟩) = false) →
      matchesAny (labels.get ⟨i, h⟩) = true →
      classifyWasteType labels = classifyWasteType [labels.get ⟨i, h⟩]) ∧
    classifyWasteType ["food", "plastic bottle"] = "Organic" := by
  refine ⟨?_, by decide⟩
  intro labels i h hfirst hmatch
  have hfind := find?_eq_get_of_first matchesAny labels i h hfirst hmatch
  have hfind1 : List.find? matchesAny [labels.get ⟨i, h⟩] = some (labels.get ⟨i, h⟩) := by
    rw [List.find?, hmatch]
  unfold classifyWasteType
  rw [hfind, hfind1]

/-- Witness for C1 at the concrete input `["food", "plastic bottle"]`,
whose first keyword-containing label is position 0. -/
theorem classify_first_match_decides_witness :
    classifyWasteType ["food", "plastic bottle"] = classifyWasteType ["food"] :=
  classify_first_match_decides.1 ["food", "plastic bottle"] 0 (by decide)
    (fun j hj => absurd hj (Nat.not_lt_zero j)) (by decide)

/-- C2: once the matched label is chosen, its category is resolved by
testing the keyword sets in the fixed order recyclable, hazardous,
donatable, organic, the first set with a keyword in the matched label
winning; in particular `["battery can"]`, matching both a recyclable and a
hazardous keyword, classifies as Recyclable. -/
theorem classify_priority_pairs :
    (∀ (labels : List String) (l : String), labels.find? matchesAny = some l →
      (matchesSet recyclableKeys l = true → classifyWasteType labels = "Recyclable") ∧
      (matchesSet recyclableKeys l = false → matchesSet hazardousKeys l = true →
        classifyWasteType labels = "Hazardous") ∧
      (matchesSet recyclableKeys l = false → matchesSet hazardousKeys l = false →
        matchesSet donatableKeys l = true → classifyWasteType labels = "Donatable") ∧
      (matchesSet recyclableKeys l = false → matchesSet hazardousKeys l = false →
        matchesSet donatableKeys l = false → matchesSet organicKeys l = true →
        classifyWasteType labels = "Organic")) ∧
    classifyWasteType ["battery can"] = "Recyclable" := by
  refine ⟨?_, by decide⟩
  intro labels l hfind
  unfold classifyWasteType
  rw [hfind]
  refine ⟨?_, ?_, ?_, ?_⟩ <;> intros <;> simp_all

/-- Witness for C2 at the concrete input `["battery can"]`. -/
theorem classify_priority_pairs_witness :
    classifyWasteType ["battery can"] = "Recyclable" :=
  (classify_priority_pairs.1 ["battery can"] "battery can" (by decide)).1 (by decide)

/-- C7: every label sequence classifies to exactly one member of the closed
enumeration, and the empty sequence, or any sequence with no
keyword-containing label, yields General Waste. -/
theorem classify_closed_enum :
    ∀ labels : List String,
      (classifyWasteType labels = "Recyclable" ∨ classifyWasteType labels = "Hazardous" ∨
       classifyWasteType labels = "Donatable" ∨ classifyWasteType labels = "Organic" ∨
       classifyWasteType labels = "General Waste") ∧
      (labels = [] → classifyWasteType labels = "General Waste") ∧
      ((∀ l ∈ labels, matchesAny l = false) → classifyWasteType labels = "General Waste") := by
  intro labels
  refine ⟨?_, ?_, ?_⟩
  · unfold classifyWasteType
    cases hf : labels.find? matchesAny with
    | none => simp
    | some l =>
      dsimp only
      split_ifs <;> simp
  · intro h
    subst h
    rfl
  · intro hall
    have hnone : labels.find? matchesAny = none :=
      List.find?_eq_none.mpr (by intro x hx; simp [hall x hx])
    unfold classifyWasteType
    rw [hnone]

/-- Witness for C7 at the empty sequence and at a sequence with no
keyword-containing label. -/
theorem classify_closed_enum_witness :
    classifyWasteType [] = "General Waste" ∧
    classifyWasteType ["unknown object"] = "General Waste" :=
  ⟨(classify_closed_enum []).2.1 rfl,
   (classify_closed_enum ["unknown object"]).2.2 (by decide)⟩

/-- Counterexample to C8 as stated: `classifyWasteType` itself is
case-sensitive, so `["Plastic Bottle"]` yields General Waste while its
lowercased form yields Recyclable — the two runs disagree and the
mixed-case input is not classified Recyclable. -/
theorem classify_case_sensitive_cex :
    classifyWasteType ["Plastic Bottle"] = "General Waste" ∧
    classifyWasteType (["Plastic Bottle"].map toLowerStr) = "Recyclable" := by
  constructor <;> decide

/-- C8 (amended): case-insensitivity holds for the request pipeline, which
lowercases every label before calling `classifyWasteType`; the composed
classification is invariant under lowercasing the input labels, and
`["Plastic Bottle"]` classifies as Recyclable through it. -/
theorem handler_classify_case_insensitive :
    (∀ descriptions : List String,
      handlerClassify descriptions = handlerClassify (descriptions.map toLowerStr)) ∧
    handlerClassify ["Plastic Bottle"] = "Recyclable" := by
  refine ⟨?_, by decide⟩
  intro descriptions
  unfold handlerClassify
  simp only [List.map_map, Function.comp_def, toLowerStr_idem]

/-- C3: `withRetry` performs at most `maxRetries` attempts, each attempt
racing the operation against the `timeoutMs` timer; failing twice then
succeeding on the third attempt returns the success; failing on every
attempt throws the last observed error; and the wait after the i-th failed
attempt (1-based) is `delayMs * i`, as the returned delay trace records. -/
theorem withRetry_policy {V : Type} (run : ℕ → Except String V) (time : ℕ → ℕ)
    (opts : RetryOptions) :
    (withRetry run time opts).attempts ≤ opts.maxRetries.toNat ∧
    (∀ i, opts.timeoutMs ≤ time i →
      raceAttempt run time opts.timeoutMs i = .error (timeoutError opts.timeoutMs)) ∧
    (∀ v : V, 3 ≤ opts.maxRetries →
      (∀ j, j < 2 → ∃ e, raceAttempt run time opts.timeoutMs j = .error e) →
      raceAttempt run time opts.timeoutMs 2 = .ok v →
      withRetry run time opts = ⟨.ok v, 3, [opts.delayMs * 1, opts.delayMs * 2]⟩) ∧
    (∀ err : ℕ → String, 1 ≤ opts.maxRetries →
      (∀ j, j < opts.maxRetries.toNat →
        raceAttempt run time opts.timeoutMs j = .error (err j)) →
      withRetry run time opts =
        ⟨.error (some (err (opts.maxRetries.toNat - 1))), opts.maxRetries.toNat,
         (List.range (opts.maxRetries.toNat - 1)).map (fun j => opts.delayMs * (j + 1))⟩) := by
  refine ⟨?_, ?_, ?_, ?_⟩
  · have h := withRetryLoop_attempts_le (raceAttempt run time opts.timeoutMs)
      opts.delayMs opts.maxRetries opts.maxRetries.toNat 0 none
    simpa [withRetry] using h
  · intro i h
    unfold raceAttempt
    rw [if_neg (by omega)]
  · intro v h3 hfail hok
    unfold withRetry
    have hrw := withRetryLoop_succeeds (raceAttempt run time opts.timeoutMs)
      opts.delayMs opts.maxRetries v 2 opts.maxRetries.toNat 0 none
      (by omega) (by omega)
      (fun j hj => by simpa using hfail j hj) (by simpa using hok)
    rw [hrw]
    simp [List.range_succ]
  · intro err h1 hfail
    unfold withRetry
    have hrw := withRetryLoop_all_fail (raceAttempt run time opts.timeoutMs)
      opts.delayMs opts.maxRetries err opts.maxRetries.toNat 0 none
      (by omega) (by omega)
      (fun j hj => by simpa using hfail j hj)
    rw [hrw]
    simp only [Nat.zero_add]

/-- Witness for C3 at concrete operations: one failing twice then
succeeding, one always failing, and one whose attempt exceeds the
per-attempt timeout. -/
theorem withRetry_policy_witness :
    withRetry runW (fun _ => 0) ⟨3, 100, 20000⟩ = ⟨.ok 7, 3, [100 * 1, 100 * 2]⟩ ∧
    withRetry (fun j => (Except.error (errW j) : Except String ℕ)) (fun _ => 0)
      ⟨3, 100, 20000⟩ = ⟨.error (some (errW 2)), 3, [100, 200]⟩ ∧
    raceAttempt runW (fun _ => 30000) 20000 0 = .error (timeoutError 20000) := by
  refine ⟨?_, ?_, ?_⟩
  · exact (withRetry_policy runW (fun _ => 0) ⟨3, 100, 20000⟩).2.2.1 7 (by decide)
      (fun j hj => ⟨"fail" ++ toString j, by
        match j, hj with
        | 0, _ => rfl
        | 1, _ => rfl⟩) rfl
  · have h := (withRetry_policy (fun j => (Except.error (errW j) : Except String ℕ))
      (fun _ => 0) ⟨3, 100, 20000⟩).2.2.2 errW (by decide) (fun j hj => rfl)
    simpa [List.range_succ] using h
  · exact (withRetry_policy runW (fun _ => 30000) ⟨3, 100, 20000⟩).2.1 0 (by decide)

/-- C10: with a non-positive `maxRetries` the loop body is never entered,
so `withRetry` performs zero attempts, never invokes the operation, and
throws the never-assigned `lastError` (the JavaScript `undefined`,
modelled as `none`). -/
theorem withRetry_nonpositive {V : Type} (run : ℕ → Except String V) (time : ℕ → ℕ)
    (opts : RetryOptions) (h : opts.maxRetries ≤ 0) :
    withRetry run time opts = ⟨.error none, 0, []⟩ ∧
    (∀ (run2 : ℕ → Except String V) (time2 : ℕ → ℕ),
      withRetry run time opts = withRetry run2 time2 opts) := by
  have hconst : ∀ (r : ℕ → Except String V) (t : ℕ → ℕ),
      withRetry r t opts = ⟨.error none, 0, []⟩ := by
    intro r t
    unfold withRetry
    have h0 : opts.maxRetries.toNat = 0 := Int.toNat_eq_zero.mpr h
    rw [h0]
    rfl
  exact ⟨hconst run time, fun run2 time2 => (hconst run time).trans (hconst run2 time2).symm⟩

/-- Witness for C10 at `maxRetries = 0` and at a negative `maxRetries`. -/
theorem withRetry_nonpositive_witness :
    withRetry (fun _ => Except.ok (1 : ℕ)) (fun _ => 0) ⟨0, 100, 20000⟩ =
      ⟨Except.error none, 0, []⟩ ∧
    withRetry (fun _ => Except.ok (2 : ℕ)) (fun _ => 0) ⟨-5, 100, 20000⟩ =
      ⟨Except.error none, 0, []⟩ :=
  ⟨(withRetry_nonpositive (fun _ => Except.ok 1) (fun _ => 0) ⟨0, 100, 20000⟩ (by decide)).1,
   (withRetry_nonpositive (fun _ => Except.ok 2) (fun _ => 0) ⟨-5, 100, 20000⟩ (by decide)).1⟩

/-- C4: `updateUserProgress` treats the classification as recyclable iff
the lowercased waste type equals `recyclable`; it appends one
classification row with result Recyclable and weight 0.1 when recyclable
(else Non-Recyclable and weight 0), awards 20 points when recyclable (else
5), adds the Eco-Warrior badge with a notification exactly when recyclable
and not already owned, and a second recyclable run adds 20 more points
without re-flagging the badge. -/
theorem update_progress_rules :
    ∀ (userId wasteType : String) (st : ProgressState),
      (updateUserProgress userId wasteType st).state.classifications =
        st.classifications ++
          [⟨userId, wasteType,
            if toLowerStr wasteType == "recyclable" then "Recyclable" else "Non-Recyclable",
            if toLowerStr wasteType == "recyclable" then 1 / 10 else 0⟩] ∧
      (updateUserProgress userId wasteType st).state.user.points =
        some (st.user.points.getD 0 +
          (if toLowerStr wasteType == "recyclable" then 20 else 5)) ∧
      (updateUserProgress userId wasteType st).state.user.badges =
        some (if (toLowerStr wasteType == "recyclable") &&
            !((st.user.badges.getD []).contains "Eco-Warrior") then
          st.user.badges.getD [] ++ ["Eco-Warrior"] else st.user.badges.getD []) ∧
      ((updateUserProgress userId wasteType st).badgeNotification = some "Eco-Warrior" ↔
        (toLowerStr wasteType == "recyclable") = true ∧
        (st.user.badges.getD []).contains "Eco-Warrior" = false) ∧
      ((toLowerStr wasteType == "recyclable") = true →
        (updateUserProgress userId wasteType
            (updateUserProgress userId wasteType st).state).badgeNotification = none ∧
        (updateUserProgress userId wasteType
            (updateUserProgress userId wasteType st).state).state.user.points =
          some (st.user.points.getD 0 + 40)) := by
  intro userId wasteType st
  by_cases hR : (toLowerStr wasteType == "recyclable") = true
  · by_cases hB : (st.user.badges.getD []).contains "Eco-Warrior" = true
    · refine ⟨?_, ?_, ?_, ?_, ?_⟩ <;> simp [updateUserProgress, hR, hB]
      exact ⟨by split <;> simp_all, by omega⟩
    · have hB2 : (st.user.badges.getD []).contains "Eco-Warrior" = false :=
        Bool.eq_false_iff.mpr hB
      refine ⟨?_, ?_, ?_, ?_, ?_⟩ <;> simp [updateUserProgress, hR, hB2]
      exact ⟨by split <;> simp_all, by omega⟩
  · have hR2 : (toLowerStr wasteType == "recyclable") = false := Bool.eq_false_iff.mpr hR
    refine ⟨?_, ?_, ?_, ?_, ?_⟩ <;> simp [updateUserProgress, hR2]

/-- Witness for C4: two consecutive recyclable classifications for one
user starting from 10 points and no badges end at 50 points with no second
badge notification. -/
theorem update_progress_rules_witness :
    (updateUserProgress "u1" "Recyclable"
        (updateUserProgress "u1" "Recyclable" ⟨[], ⟨some 10, some []⟩⟩).state).badgeNotification =
      none ∧
    (updateUserProgress "u1" "Recyclable"
        (updateUserProgress "u1" "Recyclable" ⟨[], ⟨some 10, some []⟩⟩).state).state.user.points =
      some 50 := by
  have h := (update_progress_rules "u1" "Recyclable" ⟨[], ⟨some 10, some []⟩⟩).2.2.2.2 (by decide)
  refine ⟨h.1, ?_⟩
  rw [h.2]
  decide

/-- C5: `findNearbyLocations` returns at most 3 facilities, the first
results of the external ranking projected in order with name, address and
`N/A` for a missing rating, and any failure of the external call yields
the empty list instead of an exception. -/
theorem find_nearby_best_effort :
    (∀ e : String, findNearbyLocations (.error e) = []) ∧
    (∀ response : Except String (List Place), (findNearbyLocations response).length ≤ 3) ∧
    (∀ places : List Place, (findNearbyLocations (.ok places)).length = min 3 places.length) ∧
    (∀ (places : List Place) (i : ℕ) (h : i < (findNearbyLocations (.ok places)).length),
      ∃ hp : i < places.length,
        (findNearbyLocations (.ok places)).get ⟨i, h⟩ = projectPlace (places.get ⟨i, hp⟩)) ∧
    (∀ p : Place, (projectPlace p).name = p.name ∧ (projectPlace p).address = p.vicinity ∧
      (p.rating = none → (projectPlace p).rating = .na)) := by
  refine ⟨fun e => rfl, ?_, ?_, ?_, ?_⟩
  · intro response
    cases response with
    | error e => simp [findNearbyLocations]
    | ok places => simp [findNearbyLocations]
  · intro places
    simp [findNearbyLocations]
  · intro places i h
    have hlen : (findNearbyLocations (.ok places)).length = min 3 places.length := by
      simp [findNearbyLocations]
    have hp : i < places.length :=
      lt_of_lt_of_le (hlen ▸ h) (min_le_right 3 places.length)
    refine ⟨hp, ?_⟩
    simp [findNearbyLocations, List.get_eq_getElem, List.getElem_map, List.getElem_take]
  · intro p
    exact ⟨rfl, rfl, fun h => by simp [projectPlace, ratingOrNA, h]⟩

/-- Witness for C5 at a concrete four-result ranking with a missing rating
and at a concrete upstream failure. -/
theorem find_nearby_best_effort_witness :
    (∃ hp : 1 < placesW.length,
      (findNearbyLocations (.ok placesW)).get ⟨1, by decide⟩ =
        projectPlace (placesW.get ⟨1, hp⟩)) ∧
    (projectPlace ⟨"B", "addr2", none⟩).rating = .na ∧
    findNearbyLocations (Except.error "quota exceeded") = [] :=
  ⟨find_nearby_best_effort.2.2.2.1 placesW 1 (by decide),
   (find_nearby_best_effort.2.2.2.2 ⟨"B", "addr2", none⟩).2.2 rfl,
   find_nearby_best_effort.1 "quota exceeded"⟩

/-- C9: a place whose rating is present but `0` is projected to `N/A`
because the projection tests truthiness, so a genuine zero rating is
indistinguishable from a missing one in the output. -/
theorem rating_zero_indistinguishable :
    ∀ nm addr : String,
      projectPlace ⟨nm, addr, some 0⟩ = ⟨nm, addr, RatingField.na⟩ ∧
      projectPlace ⟨nm, addr, some 0⟩ = projectPlace ⟨nm, addr, none⟩ ∧
      findNearbyLocations (.ok [⟨nm, addr, some 0⟩]) =
        findNearbyLocations (.ok [⟨nm, addr, none⟩]) := by
  intro nm addr
  exact ⟨rfl, rfl, rfl⟩

/-- C6: a request to the classify-waste endpoint that is neither POST nor
an OPTIONS preflight gets 405; a POST missing `imageBase64` or `userId`
gets 400; and a POST carrying both gets 200 regardless of `userLocation`,
so omitting the optional location is not rejected with 400. -/
theorem handler_method_and_fields :
    ∀ req : HttpRequest,
      (req.method ≠ "OPTIONS" → req.method ≠ "POST" → handler req = 405) ∧
      (req.method = "POST" →
        (truthyStr req.body.imageBase64 = false ∨ truthyStr req.body.userId = false) →
        handler req = 400) ∧
      (req.method = "POST" → truthyStr req.body.imageBase64 = true →
        truthyStr req.body.userId = true → handler req = 200) := by
  intro req
  refine ⟨?_, ?_, ?_⟩
  · intro h1 h2
    simp [handler, h1, h2]
  · intro h1 h2
    rcases h2 with h2 | h2 <;> simp [handler, h1, h2]
  · intro h1 h2 h3
    simp [handler, h1, h2, h3]

/-- Witness for C6 at a GET, a POST missing the image, and a POST with
both required fields but no location. -/
theorem handler_method_and_fields_witness :
    handler ⟨"GET", ⟨some "img", some "u1", none⟩⟩ = 405 ∧
    handler ⟨"POST", ⟨none, some "u1", none⟩⟩ = 400 ∧
    handler ⟨"POST", ⟨some "img", some "u1", none⟩⟩ = 200 :=
  ⟨(handler_method_and_fields ⟨"GET", ⟨some "img", some "u1", none⟩⟩).1
      (by decide) (by decide),
   (handler_method_and_fields ⟨"POST", ⟨none, some "u1", none⟩⟩).2.1 rfl (Or.inl rfl),
   (handler_method_and_fields ⟨"POST", ⟨some "img", some "u1", none⟩⟩).2.2 rfl rfl rfl⟩

end EnviRon
